import Mathlib

/-!
Verification development for the creo2urdf conversion plugin
(`src/creo2urdf/src/Creo2Urdf.cpp`).

The development shallowly embeds the model-assembly logic of the plugin:
numeric data uses `ℚ`, rigid transforms are a rotation matrix plus a
position, and the `std::map` tables become association lists with
first-match lookup (keys are unique in the C++ maps, and all insertions
below preserve that).  External collaborators (the Creo session, yaml-cpp,
iDynTree internals, file output) enter as parameters of the embedded
functions; the logic of `Creo2Urdf.cpp` itself is translated line by line.
-/

namespace Creo2Urdf

abbrev Vec3 := Fin 3 → ℚ
abbrev Mat3 := Fin 3 → Fin 3 → ℚ

/-- A rigid transform as stored by `iDynTree::Transform`: a rotation matrix
and a position.  -/
structure Transform where
  rot : Mat3
  pos : Vec3

instance : DecidableEq Transform :=
  fun a b =>
    decidable_of_iff (a.rot = b.rot ∧ a.pos = b.pos)
      (by cases a; cases b; simp)

/-- `iDynTree::Transform::Identity()`. -/
def Transform.ident : Transform :=
  { rot := fun i j => if i = j then 1 else 0, pos := fun _ => 0 }

/-- Composition `a * b` of homogeneous transforms. -/
def Transform.comp (a b : Transform) : Transform :=
  { rot := fun i j => ∑ k, a.rot i k * b.rot k j,
    pos := fun i => a.pos i + ∑ k, a.rot i k * b.pos k }

/-- `iDynTree::Transform::inverse()`: `(Rᵀ, -Rᵀ p)`. -/
def Transform.inv (a : Transform) : Transform :=
  { rot := fun i j => a.rot j i,
    pos := fun i => -(∑ k, a.rot k i * a.pos k) }

/-- Application of a transform to a position (`H * p = R p + t`). -/
def Transform.applyP (t : Transform) (p : Vec3) : Vec3 :=
  fun i => t.pos i + ∑ k, t.rot i k * p k

/-- First-match lookup in an association list, the embedding of
`std::map::find` / `std::map::at`. -/
def lookupKey {α : Type} : List (String × α) → String → Option α
  | [], _ => none
  | (k, v) :: t, key => if k = key then some v else lookupKey t key

/-- `std::map::insert`: inserts only when the key is absent (an existing
entry is never overwritten). -/
def insertNew {α : Type} (m : List (String × α)) (k : String) (v : α) :
    List (String × α) :=
  if (lookupKey m k).isSome then m else m ++ [(k, v)]

/-- In-place update through a `std::map::at` reference: apply `f` to the
value stored at `key`, leaving every other entry unchanged. -/
def updateAt {α : Type} (m : List (String × α)) (key : String) (f : α → α) :
    List (String × α) :=
  m.map fun kv => if kv.1 = key then (kv.1, f kv.2) else kv

/-- `needle` occurs as a contiguous sublist of `haystack`; the embedding of
`std::string::find(needle) != std::string::npos` (an empty needle is always
found, as in C++). -/
def occursIn : List Char → List Char → Bool
  | needle, [] => needle.isEmpty
  | needle, c :: t => needle.isPrefixOf (c :: t) || occursIn needle t

/-- `haystack.find(needle) != std::string::npos` on strings. -/
def strContains (haystack needle : String) : Bool :=
  occursIn needle.data haystack.data

/-! ### Lookup lemmas -/

theorem lookupKey_append {α : Type} (m₁ m₂ : List (String × α)) (k : String) :
    lookupKey (m₁ ++ m₂) k =
      match lookupKey m₁ k with
      | some v => some v
      | none => lookupKey m₂ k := by
  induction m₁ with
  | nil => simp [lookupKey]
  | cons kv t ih =>
      by_cases h : kv.1 = k
      · simp [lookupKey, h]
      · simp [lookupKey, h, ih]

theorem lookupKey_updateAt {α : Type} (m : List (String × α)) (key : String)
    (f : α → α) (k : String) :
    lookupKey (updateAt m key f) k =
      if k = key then (lookupKey m k).map f else lookupKey m k := by
  induction m with
  | nil => simp [lookupKey, updateAt]
  | cons kv t ih =>
      obtain ⟨a, b⟩ := kv
      have hstep : updateAt ((a, b) :: t) key f
          = (if a = key then (a, f b) else (a, b)) :: updateAt t key f := rfl
      rw [hstep]
      by_cases hkey : a = key
      · rw [if_pos hkey]
        subst hkey
        by_cases hk : a = k
        · subst hk
          simp [lookupKey]
        · have hne : ¬ k = a := fun h => hk h.symm
          simp [lookupKey, hk, ih, hne]
      · rw [if_neg hkey]
        by_cases hk : a = k
        · subst hk
          simp [lookupKey, hkey]
        · simp [lookupKey, hk, ih]

theorem lookupKey_insertNew {α : Type} (m : List (String × α)) (k : String)
    (v : α) (k' : String) :
    lookupKey (insertNew m k v) k' =
      match lookupKey m k' with
      | some w => some w
      | none => if (lookupKey m k).isNone ∧ k = k' then some v else none := by
  unfold insertNew
  cases hm : lookupKey m k with
  | some w =>
      have hs : (some w).isSome = true := rfl
      rw [if_pos hs]
      cases hm' : lookupKey m k' with
      | some w' => simp
      | none => simp
  | none =>
      rw [if_neg (by simp), lookupKey_append]
      cases hm' : lookupKey m k' with
      | some w' => simp
      | none =>
          by_cases hk : k = k'
          · subst hk
            simp [lookupKey]
          · simp [lookupKey, hk]

/-! ### Link & Inertia Builder: `Creo2Urdf::computeSpatialInertiafromCreo` -/

/-- The CAD mass property (`pfcMassProperty`): center-of-gravity inertia
tensor, gravity center, and mass, as reported by the Creo API. -/
structure MassProperty where
  inertia_tensor : Mat3
  com : Vec3
  mass : ℚ

/-- The data carried by an `iDynTree::SpatialInertia` built with
`fromRotationalInertiaWrtCenterOfMass`: mass, center of mass, and the
rotational inertia about the center of mass. -/
structure SpatialInertia where
  mass : ℚ
  com : Vec3
  rotInertia : Mat3

/-- `Creo2Urdf::computeSpatialInertiafromCreo`.  `assigned` is the value of
`assigned_inertias_map` at the link (the `xx`,`yy`,`zz` override triple when
configured), `assignedMass` the value of `config["assignedMasses"][link]`,
`scale` the global scale option, `mass_prop` the CAD mass property and `H`
the `root_H_link` transform.  The double loop fills every entry of the
tensor: the override value is used only when the flag is set and
`i_row == j_col`; every other entry gets the CAD value scaled by
`scale[i_row] * scale[j_col]`. -/
def computeSpatialInertiafromCreo (assigned : Option Vec3)
    (assignedMass : Option ℚ) (scale : Vec3) (mass_prop : MassProperty)
    (H : Transform) : SpatialInertia :=
  let idyn_inertia_tensor : Mat3 := fun i_row j_col =>
    match assigned with
    | some a =>
        if i_row = j_col then a i_row
        else mass_prop.inertia_tensor i_row j_col * scale i_row * scale j_col
    | none => mass_prop.inertia_tensor i_row j_col * scale i_row * scale j_col
  let com_child : Vec3 := H.inv.applyP (fun i => mass_prop.com i * scale i)
  let mass : ℚ :=
    match assignedMass with
    | some m => m
    | none => mass_prop.mass
  { mass := mass, com := com_child, rotInertia := idyn_inertia_tensor }

/-- Concrete CAD mass property with a nonzero off-diagonal inertia entry. -/
def mpOffDiag : MassProperty :=
  { inertia_tensor := fun i j => if i = j then 2 else 5,
    com := fun _ => 0,
    mass := 1 }

/-- Uniform unit scale. -/
def unitScale : Vec3 := fun _ => 1

/-- Concrete diagonal-inertia override triple. -/
def ovrDiag : Vec3 := fun _ => 7

/-- Claim C1: false as stated.  With a configured diagonal-inertia override
the off-diagonal entries of the built rotational inertia tensor are NOT
zero: they keep the CAD-reported values (scaled), as this concrete input
shows (CAD off-diagonal entry 5 survives the override). -/
theorem computeSpatialInertia_override_offdiag_not_zero :
    (computeSpatialInertiafromCreo (some ovrDiag) none unitScale mpOffDiag
        Transform.ident).rotInertia 0 1 = 5 ∧ (5 : ℚ) ≠ 0 := by
  constructor
  · show (if (0 : Fin 3) = 1 then ovrDiag 0
      else mpOffDiag.inertia_tensor 0 1 * unitScale 0 * unitScale 1) = 5
    norm_num [mpOffDiag, unitScale, Fin.ext_iff]
  · norm_num

/-- Claim C1 (amended): for every link with a configured diagonal-inertia
override, the rotational inertia tensor built by
`computeSpatialInertiafromCreo` has the three configured values on its
diagonal, while each off-diagonal entry is the CAD-reported value scaled by
`scale[i] * scale[j]` (the CAD values are not discarded off the
diagonal). -/
theorem computeSpatialInertia_override_spec (a : Vec3) (am : Option ℚ)
    (scale : Vec3) (mp : MassProperty) (H : Transform) :
    (∀ i, (computeSpatialInertiafromCreo (some a) am scale mp H).rotInertia i i
        = a i) ∧
    (∀ i j, i ≠ j →
      (computeSpatialInertiafromCreo (some a) am scale mp H).rotInertia i j
        = mp.inertia_tensor i j * scale i * scale j) := by
  constructor
  · intro i
    simp [computeSpatialInertiafromCreo]
  · intro i j hij
    simp [computeSpatialInertiafromCreo, hij]

/-- Witness for the amended claim C1 at a concrete input. -/
theorem computeSpatialInertia_override_spec_witness :
    (computeSpatialInertiafromCreo (some ovrDiag) none unitScale mpOffDiag
        Transform.ident).rotInertia 1 1 = ovrDiag 1 ∧
    (computeSpatialInertiafromCreo (some ovrDiag) none unitScale mpOffDiag
        Transform.ident).rotInertia 0 1
      = mpOffDiag.inertia_tensor 0 1 * unitScale 0 * unitScale 1 := by
  refine ⟨(computeSpatialInertia_override_spec ovrDiag none unitScale mpOffDiag
      Transform.ident).1 1,
    (computeSpatialInertia_override_spec ovrDiag none unitScale mpOffDiag
      Transform.ident).2 0 1 (by decide)⟩

/-! ### Configuration Resolver: `Creo2Urdf::getRenameElementFromConfig` -/

/-- `Creo2Urdf::getRenameElementFromConfig`.  `rename` is the
`config["rename"]` table.  Returns the canonical name together with the
messages printed: a present key returns the mapped name with no message;
an absent key returns the input unchanged after printing a warning. -/
def getRenameElementFromConfig (rename : List (String × String))
    (elem_name : String) : String × List String :=
  match lookupKey rename elem_name with
  | some new_name => (new_name, [])
  | none =>
      (elem_name,
       ["Element " ++ elem_name ++ " is not present in the configuration file!"])

/-- The name returned by `getRenameElementFromConfig` (the value used by the
callers). -/
def renameElem (rename : List (String × String)) (elem_name : String) :
    String :=
  (getRenameElementFromConfig rename elem_name).1

/-- Concrete rename table with a chained entry. -/
def chainRename : List (String × String) := [("A", "B"), ("B", "C")]

/-- Claim C6: false as stated.  The rename lookup is not idempotent: with
the table mapping "A" to "B" and "B" to "C", renaming the result of
renaming "A" yields "C", not "B". -/
theorem renameElem_not_idempotent :
    renameElem chainRename (renameElem chainRename "A") = "C" ∧
    renameElem chainRename "A" = "B" ∧ ("C" : String) ≠ "B" := by
  refine ⟨rfl, rfl, by decide⟩

/-- Claim C6 (amended): the rename lookup returns the mapped name when the
input is a key of the rename table and the input unchanged (with a warning)
otherwise; consequently it is idempotent on every name whose image is not
itself a key of the table — in particular on every name absent from the
table, where the identity fallback fires with a warning.  It is not
idempotent on chained tables. -/
theorem renameElem_fallback_and_conditional_idempotence
    (rename : List (String × String)) (n : String) :
    (lookupKey rename n = none →
      getRenameElementFromConfig rename n
        = (n, ["Element " ++ n ++ " is not present in the configuration file!"])) ∧
    (lookupKey rename (renameElem rename n) = none →
      renameElem rename (renameElem rename n) = renameElem rename n) := by
  constructor
  · intro h
    simp [getRenameElementFromConfig, h]
  · intro h
    have hg : getRenameElementFromConfig rename (renameElem rename n)
        = (renameElem rename n,
           ["Element " ++ renameElem rename n
              ++ " is not present in the configuration file!"]) := by
      unfold getRenameElementFromConfig
      rw [h]
    show (getRenameElementFromConfig rename (renameElem rename n)).1
        = renameElem rename n
    rw [hg]

/-- Witness for the amended claim C6 at concrete inputs. -/
theorem renameElem_fallback_witness :
    (lookupKey chainRename "X" = none ∧
      getRenameElementFromConfig chainRename "X"
        = ("X", ["Element " ++ "X" ++ " is not present in the configuration file!"])) ∧
    (lookupKey chainRename (renameElem chainRename "B") = none ∧
      renameElem chainRename (renameElem chainRename "B")
        = renameElem chainRename "B") := by
  refine ⟨⟨by decide, ?_⟩, ⟨by decide, ?_⟩⟩
  · exact (renameElem_fallback_and_conditional_idempotence chainRename "X").1
      (by decide)
  · exact (renameElem_fallback_and_conditional_idempotence chainRename "B").2
      (by decide)

/-! ### Joint/Frame Graph Assembler: `Creo2Urdf::populateJointInfoMap` -/

/-- The joint kinds of `JointType`. -/
inductive JointType where
  | Revolute
  | Fixed
deriving DecidableEq

/-- The `JointInfo` record: candidate name (axis or csys name), kind, and
the two endpoint link names.  A default-constructed `std::string` child is
empty. -/
structure JointInfo where
  name : String
  type : JointType
  parent_link_name : String
  child_link_name : String
deriving DecidableEq

/-- The keyed registration step shared by the axis pass and the
coordinate-system pass of `Creo2Urdf::populateJointInfoMap`: when the key is
absent the candidate is inserted with the current link as parent (and an
empty child); when the key is already present, the existing entry's child
link is overwritten with the current link.  No message is printed by either
branch. -/
def registerJointKey (m : List (String × JointInfo)) (key link : String)
    (jt : JointType) : List (String × JointInfo) :=
  match lookupKey m key with
  | none =>
      m ++ [(key, { name := key, type := jt, parent_link_name := link,
                    child_link_name := "" })]
  | some _ =>
      updateAt m key fun ji => { ji with child_link_name := link }

/-- The marker substring selecting fixed-joint coordinate systems. -/
def scsysMarker : String := "SCSYS"

/-- `Creo2Urdf::populateJointInfoMap` for one traversed component: every
axis is registered as a Revolute candidate keyed by axis name; every
coordinate system whose name contains `"SCSYS"` is registered as a Fixed
candidate keyed by the csys name (others are discarded). -/
def populateJointInfoMap (m : List (String × JointInfo)) (link_name : String)
    (axes csys_names : List String) : List (String × JointInfo) :=
  let m1 := axes.foldl (fun m a => registerJointKey m a link_name .Revolute) m
  csys_names.foldl
    (fun m c =>
      if strContains c scsysMarker then registerJointKey m c link_name .Fixed
      else m) m1

/-- The messages printed by `Creo2Urdf::populateJointInfoMap` for one
component: only the two empty-list warnings; the registration branches
print nothing, whatever the map already contains. -/
def populateJointInfoMapLog (link_name : String)
    (axes csys_names : List String) : List String :=
  (if axes.isEmpty then ["There is no AXIS in the part " ++ link_name] else [])
  ++ (if csys_names.isEmpty then ["There is no CSYS in the part " ++ link_name]
      else [])

/-- Claim C2: false as stated.  A third observation of the same
joint-candidate key is not reported as an error: it silently overwrites the
child endpoint.  Concretely, registering axis "AXS" from links "L1", "L2",
"L3" in turn leaves child = "L3" (overwriting "L2"), with no message ever
printed for the collision. -/
theorem registerJointKey_third_overwrites :
    (lookupKey
        (populateJointInfoMap
          (populateJointInfoMap
            (populateJointInfoMap [] "L1" ["AXS"] []) "L2" ["AXS"] [])
          "L3" ["AXS"] [])
        "AXS").map (fun ji => ji.child_link_name) = some "L3" ∧
    (lookupKey
        (populateJointInfoMap
          (populateJointInfoMap [] "L1" ["AXS"] []) "L2" ["AXS"] [])
        "AXS").map (fun ji => ji.child_link_name) = some "L2" ∧
    populateJointInfoMapLog "L3" ["AXS"] [] =
      ["There is no CSYS in the part " ++ "L3"] := by
  refine ⟨rfl, rfl, rfl⟩

/-- Claim C2 (amended): the first observation of a joint-candidate key sets
the parent link and leaves the child empty; every subsequent observation —
the second, but equally a third or later one — overwrites the child link
with the newest observed link, preserving the parent and the joint kind,
and no observation is ever reported as an error (the per-component log does
not depend on the map contents). -/
theorem registerJointKey_spec (m : List (String × JointInfo))
    (key link : String) (jt : JointType) :
    (lookupKey m key = none →
      registerJointKey m key link jt
        = m ++ [(key, { name := key, type := jt, parent_link_name := link,
                        child_link_name := "" })]) ∧
    (∀ ji, lookupKey m key = some ji →
      lookupKey (registerJointKey m key link jt) key
        = some { ji with child_link_name := link }) := by
  constructor
  · intro h
    simp [registerJointKey, h]
  · intro ji h
    simp [registerJointKey, h, lookupKey_updateAt]

/-- Witness for the amended claim C2 at concrete inputs. -/
theorem registerJointKey_spec_witness :
    (lookupKey ([] : List (String × JointInfo)) "AXS" = none ∧
      registerJointKey [] "AXS" "L1" .Revolute
        = [("AXS", { name := "AXS", type := .Revolute,
                     parent_link_name := "L1", child_link_name := "" })]) ∧
    (lookupKey (registerJointKey [] "AXS" "L1" .Revolute) "AXS"
        = some { name := "AXS", type := .Revolute, parent_link_name := "L1",
                 child_link_name := "" } ∧
      lookupKey
          (registerJointKey (registerJointKey [] "AXS" "L1" .Revolute)
            "AXS" "L2" .Revolute) "AXS"
        = some { name := "AXS", type := .Revolute, parent_link_name := "L1",
                 child_link_name := "L2" }) := by
  refine ⟨⟨rfl, ?_⟩, ⟨rfl, ?_⟩⟩
  · exact (registerJointKey_spec [] "AXS" "L1" .Revolute).1 rfl
  · exact (registerJointKey_spec (registerJointKey [] "AXS" "L1" .Revolute)
      "AXS" "L2" .Revolute).2 _ rfl

/-! ### The joint-assembly loop of `Creo2Urdf::OnCommand` (lines 147-218) -/

/-- The data of a joint added to the iDynTree model by the assembly loop:
the candidate key, the final (renamed) joint name, the renamed endpoint
names used by `addJoint`, the original endpoint names, the parent-to-child
transform, and — for a Revolute joint — the axis direction. -/
structure EmittedJoint where
  key : String
  joint_name : String
  parent : String
  child : String
  parent_orig : String
  child_orig : String
  parent_H_child : Transform
  axis : Option Vec3
deriving DecidableEq

/-- The context of the assembly loop: the `config["rename"]` table, the
`config["reverseRotationAxis"]` scalar (empty when undefined), the
`root_H_link` table built during traversal (`link_info_map`, total here
because the loop reads it with `std::map::at` on keys inserted during
traversal), and the direction returned by `getRotationAxisFromPart` for
each axis name (an external Creo query, modelled as a total oracle). -/
structure AssembleCtx where
  rename : List (String × String)
  reverseRotationAxis : String
  linkOf : String → Transform
  axisOf : String → Vec3

/-- One iteration body of the assembly loop for a candidate whose child is
known to be nonempty: compute the renamed joint name, the parent-to-child
transform `root_H_parent_link.inverse() * root_H_child_link`, and — for a
Revolute candidate — the axis, reversed when the final joint name occurs in
the `reverseRotationAxis` configuration value. -/
def emitJoint (ctx : AssembleCtx) (kv : String × JointInfo) : EmittedJoint :=
  let ji := kv.2
  let joint_name := renameElem ctx.rename
    (ji.parent_link_name ++ "--" ++ ji.child_link_name)
  { key := kv.1
    joint_name := joint_name
    parent := renameElem ctx.rename ji.parent_link_name
    child := renameElem ctx.rename ji.child_link_name
    parent_orig := ji.parent_link_name
    child_orig := ji.child_link_name
    parent_H_child := (ctx.linkOf ji.parent_link_name).inv.comp
      (ctx.linkOf ji.child_link_name)
    axis :=
      match ji.type with
      | .Revolute =>
          let axis := ctx.axisOf ji.name
          some (if strContains ctx.reverseRotationAxis joint_name
                then fun i => -(axis i) else axis)
      | .Fixed => none }

/-- The links and joints of the `iDynTree::Model` under construction. -/
structure ModelState where
  links : List String
  joints : List EmittedJoint
deriving DecidableEq

/-- `iDynTree::Model::addJoint` (external library): fails — returning
`JOINT_INVALID_INDEX` — when an endpoint link is not in the model or the
joint name is already taken; otherwise appends the joint. -/
def addJointToModel (st : ModelState) (j : EmittedJoint) : Option ModelState :=
  if st.links.contains j.parent && st.links.contains j.child
      && !((st.joints.map EmittedJoint.joint_name).contains j.joint_name) then
    some { st with joints := st.joints ++ [j] }
  else none

/-- The joint-assembly loop: candidates with an empty child link are
skipped with no message (the "cut assembly" case); otherwise the joint is
emitted and added to the model, and a failing `addJoint` prints
"FAILED TO ADD JOINT" and aborts the run.  Returns the model state and the
printed messages. -/
def jointLoop (ctx : AssembleCtx) (st : ModelState) :
    List (String × JointInfo) → ModelState × List String
  | [] => (st, [])
  | kv :: rest =>
      if kv.2.child_link_name = "" then jointLoop ctx st rest
      else
        match addJointToModel st (emitJoint ctx kv) with
        | some st1 => jointLoop ctx st1 rest
        | none =>
            (st, ["FAILED TO ADD JOINT " ++ (emitJoint ctx kv).joint_name])

/-- A successful `addJoint` appends exactly the given joint. -/
theorem addJointToModel_some (st : ModelState) (j : EmittedJoint)
    (st1 : ModelState) (h : addJointToModel st j = some st1) :
    st1.joints = st.joints ++ [j] := by
  unfold addJointToModel at h
  split at h
  · cases h
    rfl
  · cases h

/-- Every joint the loop adds beyond the initial state is the emission of a
candidate with a nonempty child link. -/
theorem jointLoop_joints_from_emit (ctx : AssembleCtx) (st : ModelState)
    (jmap : List (String × JointInfo)) :
    ∀ j ∈ (jointLoop ctx st jmap).1.joints,
      j ∈ st.joints ∨ ∃ kv ∈ jmap, kv.2.child_link_name ≠ "" ∧
        j = emitJoint ctx kv := by
  induction jmap generalizing st with
  | nil =>
      intro j hj
      exact Or.inl hj
  | cons kv rest ih =>
      intro j hj
      by_cases hc : kv.2.child_link_name = ""
      · rw [jointLoop, if_pos hc] at hj
        rcases ih st j hj with h | ⟨kv', hkv', hne, he⟩
        · exact Or.inl h
        · exact Or.inr ⟨kv', List.mem_cons_of_mem _ hkv', hne, he⟩
      · rw [jointLoop, if_neg hc] at hj
        rcases hadd : addJointToModel st (emitJoint ctx kv) with _ | st1
        · simp only [hadd] at hj
          exact Or.inl hj
        · simp only [hadd] at hj
          rcases ih st1 j hj with h | ⟨kv', hkv', hne, he⟩
          · rw [addJointToModel_some st _ st1 hadd] at h
            rcases List.mem_append.mp h with h' | h'
            · exact Or.inl h'
            · refine Or.inr ⟨kv, List.mem_cons_self _ _, hc, ?_⟩
              simpa using h'
          · exact Or.inr ⟨kv', List.mem_cons_of_mem _ hkv', hne, he⟩

/-- Claim C3: for every joint candidate with both endpoints, the
parent-to-child transform stored in the joint added to the model is
`root_H_parent_link.inverse() * root_H_child_link`, i.e. the inverse of the
parent link's root pose composed with the child link's root pose. -/
theorem jointLoop_parent_H_child (ctx : AssembleCtx) (st : ModelState)
    (jmap : List (String × JointInfo)) :
    ∀ j ∈ (jointLoop ctx st jmap).1.joints,
      j ∈ st.joints ∨
        j.parent_H_child
          = (ctx.linkOf j.parent_orig).inv.comp (ctx.linkOf j.child_orig) := by
  intro j hj
  rcases jointLoop_joints_from_emit ctx st jmap j hj with h | ⟨kv, _, _, he⟩
  · exact Or.inl h
  · subst he
    exact Or.inr rfl

/-- Concrete assembly context: identity rename, empty reversal value,
identity root poses, zero axes. -/
def c3ctx : AssembleCtx :=
  { rename := [], reverseRotationAxis := "",
    linkOf := fun _ => Transform.ident, axisOf := fun _ _ => 0 }

/-- Concrete model state holding the two renamed endpoint links. -/
def c3st : ModelState := { links := ["L1", "L2"], joints := [] }

/-- Concrete two-endpoint Revolute candidate. -/
def c3ji : JointInfo :=
  { name := "AXS", type := .Revolute, parent_link_name := "L1",
    child_link_name := "L2" }

/-- The joint the loop emits for `c3ji`. -/
def c3joint : EmittedJoint := emitJoint c3ctx ("AXS", c3ji)

/-- Witness for claim C3 at a concrete input. -/
theorem jointLoop_parent_H_child_witness :
    c3joint ∈ (jointLoop c3ctx c3st [("AXS", c3ji)]).1.joints ∧
    (c3joint ∈ c3st.joints ∨
      c3joint.parent_H_child
        = (c3ctx.linkOf c3joint.parent_orig).inv.comp
            (c3ctx.linkOf c3joint.child_orig)) := by
  have hmem : c3joint ∈ (jointLoop c3ctx c3st [("AXS", c3ji)]).1.joints := by
    have : (jointLoop c3ctx c3st [("AXS", c3ji)]).1.joints = [c3joint] := rfl
    rw [this]
    exact List.mem_singleton.mpr rfl
  exact ⟨hmem, jointLoop_parent_H_child c3ctx c3st [("AXS", c3ji)] c3joint hmem⟩

/-- Claim C4: a joint candidate whose child link name is empty after
traversal is skipped by the joint-assembly loop: removing it from the
candidate table changes neither the resulting model nor the printed
messages (no error is reported for it), and every joint the loop adds to
the model comes from a candidate with a nonempty child, so no joint for a
dangling candidate ever appears. -/
theorem jointLoop_drops_empty_child :
    (∀ (ctx : AssembleCtx) (st : ModelState)
        (pre post : List (String × JointInfo)) (k : String) (ji : JointInfo),
      ji.child_link_name = "" →
      jointLoop ctx st (pre ++ (k, ji) :: post) = jointLoop ctx st (pre ++ post)) ∧
    (∀ (ctx : AssembleCtx) (st : ModelState)
        (jmap : List (String × JointInfo)) (j : EmittedJoint),
      j ∈ (jointLoop ctx st jmap).1.joints →
        j ∈ st.joints ∨ j.child_orig ≠ "") := by
  constructor
  · intro ctx st pre post k ji h
    induction pre generalizing st with
    | nil =>
        rw [List.nil_append, List.nil_append, jointLoop, if_pos h]
    | cons kv pres ih =>
        rw [List.cons_append, List.cons_append]
        simp only [jointLoop]
        by_cases hc : kv.2.child_link_name = ""
        · rw [if_pos hc, if_pos hc]
          exact ih st
        · rw [if_neg hc, if_neg hc]
          cases hadd : addJointToModel st (emitJoint ctx kv) with
          | none => simp only [hadd]
          | some st1 =>
              simp only [hadd]
              exact ih st1
  · intro ctx st jmap j hj
    rcases jointLoop_joints_from_emit ctx st jmap j hj with h | ⟨kv, _, hne, he⟩
    · exact Or.inl h
    · subst he
      exact Or.inr hne

/-- Concrete dangling candidate (empty child link name). -/
def c4jiEmpty : JointInfo :=
  { name := "AXD", type := .Revolute, parent_link_name := "L1",
    child_link_name := "" }

/-- Concrete model state already holding one joint. -/
def c4stWithJoint : ModelState :=
  { links := ["L1", "L2"], joints := [emitJoint c3ctx ("AXS", c3ji)] }

/-- Witness for claim C4 at concrete inputs. -/
theorem jointLoop_drops_empty_child_witness :
    (c4jiEmpty.child_link_name = "" ∧
      jointLoop c3ctx c3st ([] ++ ("AXD", c4jiEmpty) :: [])
        = jointLoop c3ctx c3st ([] ++ [])) ∧
    (emitJoint c3ctx ("AXS", c3ji) ∈ (jointLoop c3ctx c4stWithJoint []).1.joints ∧
      (emitJoint c3ctx ("AXS", c3ji) ∈ c4stWithJoint.joints ∨
        (emitJoint c3ctx ("AXS", c3ji)).child_orig ≠ "")) := by
  have hmem : emitJoint c3ctx ("AXS", c3ji)
      ∈ (jointLoop c3ctx c4stWithJoint []).1.joints := by
    show emitJoint c3ctx ("AXS", c3ji) ∈ [emitJoint c3ctx ("AXS", c3ji)]
    exact List.mem_singleton.mpr rfl
  refine ⟨⟨rfl, jointLoop_drops_empty_child.1 c3ctx c3st [] [] "AXD" c4jiEmpty rfl⟩,
    hmem, jointLoop_drops_empty_child.2 c3ctx c4stWithJoint [] _ hmem⟩

/-- Claim C7: for a Revolute candidate, the axis stored in the emitted
joint is the negation of the raw CAD-reported direction exactly when the
final (renamed) joint name occurs in the configured `reverseRotationAxis`
value, and the raw direction unchanged otherwise. -/
theorem emitJoint_reverseRotationAxis (ctx : AssembleCtx) (k : String)
    (ji : JointInfo) (hrev : ji.type = JointType.Revolute) :
    (strContains ctx.reverseRotationAxis
        (renameElem ctx.rename
          (ji.parent_link_name ++ "--" ++ ji.child_link_name)) = true →
      (emitJoint ctx (k, ji)).axis = some (fun i => -(ctx.axisOf ji.name i))) ∧
    (strContains ctx.reverseRotationAxis
        (renameElem ctx.rename
          (ji.parent_link_name ++ "--" ++ ji.child_link_name)) = false →
      (emitJoint ctx (k, ji)).axis = some (ctx.axisOf ji.name)) := by
  constructor <;> intro h <;> simp [emitJoint, hrev, h]

/-- Context whose `reverseRotationAxis` value contains the joint name. -/
def c7ctxRev : AssembleCtx :=
  { rename := [], reverseRotationAxis := "L1--L2",
    linkOf := fun _ => Transform.ident, axisOf := fun _ _ => 1 }

/-- Witness for claim C7 at concrete inputs: the reversal fires when the
joint name occurs in the configured value (`c7ctxRev`) and does not when
the value is empty (`c3ctx`). -/
theorem emitJoint_reverseRotationAxis_witness :
    (strContains c7ctxRev.reverseRotationAxis
        (renameElem c7ctxRev.rename
          (c3ji.parent_link_name ++ "--" ++ c3ji.child_link_name)) = true ∧
      (emitJoint c7ctxRev ("AXS", c3ji)).axis
        = some (fun i => -(c7ctxRev.axisOf c3ji.name i))) ∧
    (strContains c3ctx.reverseRotationAxis
        (renameElem c3ctx.rename
          (c3ji.parent_link_name ++ "--" ++ c3ji.child_link_name)) = false ∧
      (emitJoint c3ctx ("AXS", c3ji)).axis = some (c3ctx.axisOf c3ji.name)) := by
  refine ⟨⟨by decide, ?_⟩, ⟨by decide, ?_⟩⟩
  · exact (emitJoint_reverseRotationAxis c7ctxRev "AXS" c3ji rfl).1 (by decide)
  · exact (emitJoint_reverseRotationAxis c3ctx "AXS" c3ji rfl).2 (by decide)

/-! ### Frame Projector: `Creo2Urdf::readExportedFramesFromConfig` and
`Creo2Urdf::populateExportedFrameInfoMap` -/

/-- The `ExportedFrameInfo` record. -/
structure ExportedFrameInfo where
  frameReferenceLink : String
  exportedFrameName : String
  linkFrame_H_additionalFrame : Transform
  additionalTransformation : Transform
deriving DecidableEq

/-- One `exportedFrames` entry of the configuration document.  The
`additionalTransformation` field is the transform built from the optional
six-number entry (position plus roll/pitch/yaw; the RPY-to-rotation
conversion is external numeric code, so the entry carries the built
transform). -/
structure ConfigExportedFrame where
  frameName : String
  frameReferenceLink : String
  exportedFrameName : String
  additionalTransformation : Option Transform

/-- `Creo2Urdf::readExportedFramesFromConfig`: registers the explicit
configuration entries into the exported-frame table — unless the
`exportedFrames` key is undefined or `exportAllUseradded` is set, in which
case it returns at once and registers nothing. -/
def readExportedFramesFromConfig
    (exportedFrames : Option (List ConfigExportedFrame))
    (exportAllUseradded : Bool) (m : List (String × ExportedFrameInfo)) :
    List (String × ExportedFrameInfo) :=
  if exportedFrames.isNone || exportAllUseradded then m
  else
    (exportedFrames.getD []).foldl
      (fun m ef =>
        insertNew m ef.frameName
          { frameReferenceLink := ef.frameReferenceLink,
            exportedFrameName := ef.exportedFrameName,
            linkFrame_H_additionalFrame := Transform.ident,
            additionalTransformation :=
              ef.additionalTransformation.getD Transform.ident }) m

/-- Update of `linkFrame_H_additionalFrame` through the
`exported_frame_info_map.at(csys_name)` reference. -/
def setLinkFrameH (m : List (String × ExportedFrameInfo)) (key : String)
    (t : Transform) : List (String × ExportedFrameInfo) :=
  updateAt m key fun e => { e with linkFrame_H_additionalFrame := t }

/-- The body of the coordinate-system loop of
`Creo2Urdf::populateExportedFrameInfoMap` for one csys name.
`link_frame_name` is the component's link frame, and `partT` gives the
transform returned by `getTransformFromPart` for each frame name of this
component (an external Creo query, modelled as an oracle).  When
`exportAllUseradded` is set: a csys whose name lacks the `"SCSYS"` marker,
or that is already registered, is skipped entirely (`continue`); otherwise
it is registered under the name `csys_name + "_USERADDED"` and its
`linkFrame_H_additionalFrame` is then resolved as
`csys_H_linkFrame.inverse() * csys_H_additionalFrame`.  When the flag is
off, only already-registered names get their transform resolved. -/
def processCsysEF (exportAllUseradded : Bool)
    (rename : List (String × String)) (link_name link_frame_name : String)
    (partT : String → Transform) (m : List (String × ExportedFrameInfo))
    (csys_name : String) : List (String × ExportedFrameInfo) :=
  if exportAllUseradded then
    if !strContains csys_name scsysMarker
        || (lookupKey m csys_name).isSome then m
    else
      setLinkFrameH
        (m ++ [(csys_name,
          { frameReferenceLink := renameElem rename link_name,
            exportedFrameName := csys_name ++ "_USERADDED",
            linkFrame_H_additionalFrame := Transform.ident,
            additionalTransformation := Transform.ident })])
        csys_name ((partT link_frame_name).inv.comp (partT csys_name))
  else
    match lookupKey m csys_name with
    | some _ =>
        setLinkFrameH m csys_name
          ((partT link_frame_name).inv.comp (partT csys_name))
    | none => m

/-- `Creo2Urdf::populateExportedFrameInfoMap` for one traversed component:
the csys loop folded over the component's coordinate-system names. -/
def populateExportedFrameInfoMap (exportAllUseradded : Bool)
    (rename : List (String × String)) (link_name link_frame_name : String)
    (partT : String → Transform) (m : List (String × ExportedFrameInfo))
    (csys_names : List String) : List (String × ExportedFrameInfo) :=
  csys_names.foldl
    (processCsysEF exportAllUseradded rename link_name link_frame_name partT)
    m

/-- With the blanket flag set, one csys step preserves existing entries
verbatim, only adds entries named with the `_USERADDED` suffix, and leaves
the processed csys registered whenever it carries the marker. -/
theorem processCsysEF_inv (rename : List (String × String))
    (link_name link_frame_name : String) (partT : String → Transform)
    (m : List (String × ExportedFrameInfo)) (c : String) :
    (∀ k v, lookupKey m k = some v →
      lookupKey (processCsysEF true rename link_name link_frame_name partT m c)
        k = some v) ∧
    (∀ k, lookupKey m k = none →
      lookupKey (processCsysEF true rename link_name link_frame_name partT m c)
          k = none ∨
      ∃ e, lookupKey
            (processCsysEF true rename link_name link_frame_name partT m c) k
          = some e ∧
        e.exportedFrameName = k ++ "_USERADDED" ∧
        e.frameReferenceLink = renameElem rename link_name) ∧
    (strContains c scsysMarker = true →
      (lookupKey (processCsysEF true rename link_name link_frame_name partT m c)
        c).isSome = true) := by
  unfold processCsysEF
  rw [if_pos rfl]
  by_cases hg : (!strContains c scsysMarker
      || (lookupKey m c).isSome) = true
  · rw [if_pos hg]
    refine ⟨fun k v hv => hv, fun k hk => Or.inl hk, fun hc => ?_⟩
    rcases Bool.or_eq_true_iff.mp hg with h | h
    · rw [hc] at h
      cases h
    · exact h
  · rw [if_neg hg]
    have hmc : lookupKey m c = none := by
      rcases hmc' : lookupKey m c with _ | v
      · rfl
      · exact absurd (by simp [hmc']) hg
    refine ⟨?_, ?_, ?_⟩
    · intro k v hv
      have hkc : ¬ k = c := fun h => by
        rw [h, hmc] at hv
        cases hv
      rw [setLinkFrameH, lookupKey_updateAt, if_neg hkc, lookupKey_append, hv]
    · intro k hk
      by_cases hkc : k = c
      · subst hkc
        refine Or.inr ⟨({ frameReferenceLink := renameElem rename link_name, exportedFrameName := k ++ "_USERADDED", linkFrame_H_additionalFrame := (partT link_frame_name).inv.comp (partT k), additionalTransformation := Transform.ident }), ?_, rfl, rfl⟩
        rw [setLinkFrameH, lookupKey_updateAt, if_pos rfl, lookupKey_append,
          hmc]
        simp [lookupKey]
      · refine Or.inl ?_
        have hck : ¬ c = k := fun h => hkc h.symm
        rw [setLinkFrameH, lookupKey_updateAt, if_neg hkc, lookupKey_append, hk]
        simp [lookupKey, hck]
    · intro _
      rw [setLinkFrameH, lookupKey_updateAt, if_pos rfl, lookupKey_append, hmc]
      simp [lookupKey]

/-- With the blanket flag set, the whole csys loop preserves existing
entries verbatim, only adds `_USERADDED`-named entries, and registers every
marker-bearing csys of the component. -/
theorem populateExportedFrameInfoMap_inv (rename : List (String × String))
    (link_name link_frame_name : String) (partT : String → Transform)
    (csys_names : List String) (m : List (String × ExportedFrameInfo)) :
    (∀ k v, lookupKey m k = some v →
      lookupKey (populateExportedFrameInfoMap true rename link_name
        link_frame_name partT m csys_names) k = some v) ∧
    (∀ k, lookupKey m k = none →
      lookupKey (populateExportedFrameInfoMap true rename link_name
          link_frame_name partT m csys_names) k = none ∨
      ∃ e, lookupKey (populateExportedFrameInfoMap true rename link_name
            link_frame_name partT m csys_names) k = some e ∧
        e.exportedFrameName = k ++ "_USERADDED" ∧
        e.frameReferenceLink = renameElem rename link_name) ∧
    (∀ c ∈ csys_names, strContains c scsysMarker = true →
      (lookupKey (populateExportedFrameInfoMap true rename link_name
        link_frame_name partT m csys_names) c).isSome = true) := by
  induction csys_names generalizing m with
  | nil =>
      refine ⟨fun k v hv => hv, fun k hk => Or.inl hk, ?_⟩
      intro c hc
      cases hc
  | cons c cs ih =>
      have hstep := processCsysEF_inv rename link_name link_frame_name partT m c
      have hfold : populateExportedFrameInfoMap true rename link_name
          link_frame_name partT m (c :: cs)
          = populateExportedFrameInfoMap true rename link_name link_frame_name
              partT (processCsysEF true rename link_name link_frame_name partT
                m c) cs := rfl
      rw [hfold]
      refine ⟨?_, ?_, ?_⟩
      · intro k v hv
        exact (ih _).1 k v (hstep.1 k v hv)
      · intro k hk
        rcases hstep.2.1 k hk with h1 | ⟨e, he, hn, hr⟩
        · exact (ih _).2.1 k h1
        · exact Or.inr ⟨e, (ih _).1 k e he, hn, hr⟩
      · intro c' hc' hmark
        rcases List.mem_cons.mp hc' with h | h
        · subst h
          have := hstep.2.2 hmark
          rcases hs : lookupKey (processCsysEF true rename link_name
              link_frame_name partT m c') c' with _ | v
          · rw [hs] at this
            cases this
          · rw [(ih _).1 c' v hs]
            rfl
        · exact (ih _).2.2 c' h hmark

/-- Claim C5: when `exportAllUseradded` is enabled, the explicit
`exportedFrames` configuration entries register nothing (the reader returns
at once), every coordinate system carrying the user-added marker on a
traversed component is registered as an exported frame, names already
present in the table — in particular any explicitly registered name — are
skipped rather than re-registered (their entries survive verbatim), and
every newly registered frame is named by appending the fixed suffix
`"_USERADDED"` to the coordinate-system name. -/
theorem exportAllUseradded_spec
    (exportedFrames : Option (List ConfigExportedFrame))
    (rename : List (String × String)) (link_name link_frame_name : String)
    (partT : String → Transform) (m : List (String × ExportedFrameInfo))
    (csys_names : List String) :
    readExportedFramesFromConfig exportedFrames true m = m ∧
    (∀ c ∈ csys_names, strContains c scsysMarker = true →
      (lookupKey (populateExportedFrameInfoMap true rename link_name
        link_frame_name partT m csys_names) c).isSome = true) ∧
    (∀ k v, lookupKey m k = some v →
      lookupKey (populateExportedFrameInfoMap true rename link_name
        link_frame_name partT m csys_names) k = some v) ∧
    (∀ k e, lookupKey m k = none →
      lookupKey (populateExportedFrameInfoMap true rename link_name
        link_frame_name partT m csys_names) k = some e →
      e.exportedFrameName = k ++ "_USERADDED" ∧
      e.frameReferenceLink = renameElem rename link_name) := by
  have hinv := populateExportedFrameInfoMap_inv rename link_name
    link_frame_name partT csys_names m
  refine ⟨?_, hinv.2.2, hinv.1, ?_⟩
  · unfold readExportedFramesFromConfig
    rw [if_pos (by simp)]
  · intro k e hk he
    rcases hinv.2.1 k hk with h | ⟨e', he', hn, hr⟩
    · rw [h] at he
      cases he
    · rw [he'] at he
      cases he
      exact ⟨hn, hr⟩

/-- A pre-registered exported-frame entry (as an explicitly configured name
would be). -/
def c5e0 : ExportedFrameInfo :=
  { frameReferenceLink := "LNK", exportedFrameName := "SCSYS_0_CUSTOM",
    linkFrame_H_additionalFrame := Transform.ident,
    additionalTransformation := Transform.ident }

/-- Exported-frame table holding the pre-registered entry. -/
def c5m0 : List (String × ExportedFrameInfo) := [("SCSYS_0", c5e0)]

/-- The table after the blanket-export pass over two marker csys names. -/
def c5result : List (String × ExportedFrameInfo) :=
  populateExportedFrameInfoMap true [] "L1" "" (fun _ => Transform.ident)
    c5m0 ["SCSYS_0", "SCSYS_1"]

/-- Witness for claim C5 at concrete inputs: the explicit reader is a no-op
under the flag, the pre-registered name "SCSYS_0" survives verbatim, and
the newly discovered "SCSYS_1" is registered with the suffix-derived
name. -/
theorem exportAllUseradded_spec_witness :
    readExportedFramesFromConfig (some []) true c5m0 = c5m0 ∧
    (lookupKey c5result "SCSYS_1").isSome = true ∧
    lookupKey c5result "SCSYS_0" = some c5e0 ∧
    ({ frameReferenceLink := renameElem [] "L1",
       exportedFrameName := "SCSYS_1" ++ "_USERADDED",
       linkFrame_H_additionalFrame :=
         (Transform.ident).inv.comp Transform.ident,
       additionalTransformation := Transform.ident : ExportedFrameInfo
     }).exportedFrameName = "SCSYS_1" ++ "_USERADDED" ∧
    ({ frameReferenceLink := renameElem [] "L1",
       exportedFrameName := "SCSYS_1" ++ "_USERADDED",
       linkFrame_H_additionalFrame :=
         (Transform.ident).inv.comp Transform.ident,
       additionalTransformation := Transform.ident : ExportedFrameInfo
     }).frameReferenceLink = renameElem [] "L1" := by
  have h := exportAllUseradded_spec (some []) [] "L1" "" (fun _ => Transform.ident)
    c5m0 ["SCSYS_0", "SCSYS_1"]
  refine ⟨h.1, ?_, ?_, ?_⟩
  · exact h.2.1 "SCSYS_1" (by simp) (by decide)
  · exact h.2.2.1 "SCSYS_0" c5e0 rfl
  · exact h.2.2.2 "SCSYS_1" _ rfl rfl

/-! ### The prelude of `Creo2Urdf::OnCommand` (lines 23, 52-59) -/

/-- The `LinkInfo` record kept in `link_info_map` (the `modelhdl` Creo
handle is external and not part of the embedded state). -/
structure LinkInfo where
  urdf_link_name : String
  root_H_link : Transform
  link_frame_name : String

/-- Shape kinds of `ShapeType` for assigned collision geometry. -/
inductive ShapeType where
  | Box
  | Cylinder
  | Sphere
  | None
deriving DecidableEq

/-- The `CollisionGeometryInfo` record (flat, as in the source: only the
fields of the selected shape are meaningful).  `link_H_geometry` is the
transform built from the six `origin` numbers (the RPY-to-rotation
conversion is external numeric code, so the record carries the built
transform). -/
structure CollisionGeometryInfo where
  shape : ShapeType
  size : Vec3
  radius : ℚ
  length : ℚ
  link_H_geometry : Transform

/-- The per-session shared state of the plugin: the five `std::map`
members and the `iDynTree::Model` under construction. -/
structure SessionState where
  joint_info_map : List (String × JointInfo)
  link_info_map : List (String × LinkInfo)
  exported_frame_info_map : List (String × ExportedFrameInfo)
  assigned_inertias_map : List (String × Vec3)
  assigned_collision_geometry_map : List (String × CollisionGeometryInfo)
  idyn_model : ModelState

/-- The state-reset prelude of `Creo2Urdf::OnCommand`: the model is
re-assigned a fresh `iDynTree::Model` unconditionally (line 23), but the
five maps are cleared only under the guard
`if (joint_info_map.size() > 0)` (lines 52-59). -/
def onCommandClearStep (s : SessionState) : SessionState :=
  let s0 := { s with idyn_model := { links := [], joints := [] } }
  if s0.joint_info_map.length > 0 then
    { s0 with
      joint_info_map := []
      link_info_map := []
      exported_frame_info_map := []
      assigned_inertias_map := []
      assigned_collision_geometry_map := [] }
  else s0

/-- Leftover state from a previous run whose joint-candidate table is
empty but whose link table is not (e.g. a model with components but no
axes and no marker csys). -/
def staleState : SessionState :=
  { joint_info_map := [],
    link_info_map := [("L1",
      { urdf_link_name := "L1", root_H_link := Transform.ident,
        link_frame_name := "" })],
    exported_frame_info_map := [],
    assigned_inertias_map := [("L1", fun _ => 1)],
    assigned_collision_geometry_map := [],
    idyn_model := { links := ["L1"], joints := [] } }

/-- Claim C8: false as stated.  The shared maps are NOT fully cleared at
the start of every invocation: the clearing is guarded by the
joint-candidate table being nonempty, so a stale link table (and stale
assigned-inertia table) survives into the next run when the previous run
left the joint-candidate table empty. -/
theorem onCommandClearStep_not_full_clear :
    (onCommandClearStep staleState).link_info_map ≠ [] ∧
    (onCommandClearStep staleState).assigned_inertias_map ≠ [] ∧
    staleState.joint_info_map = [] := by
  refine ⟨?_, ?_, rfl⟩
  · intro h
    cases h
  · intro h
    cases h

/-- Claim C8 (amended): at the start of every invocation the model under
construction is reset unconditionally, but the five shared maps are
cleared only when the joint-candidate table is nonempty; when it is empty
the other maps are left untouched, so repeated invocations start from
empty state only under that guard. -/
theorem onCommandClearStep_spec (s : SessionState) :
    (onCommandClearStep s).idyn_model = { links := [], joints := [] } ∧
    (s.joint_info_map ≠ [] →
      onCommandClearStep s
        = { joint_info_map := [], link_info_map := [],
            exported_frame_info_map := [], assigned_inertias_map := [],
            assigned_collision_geometry_map := [],
            idyn_model := { links := [], joints := [] } }) ∧
    (s.joint_info_map = [] →
      (onCommandClearStep s).link_info_map = s.link_info_map ∧
      (onCommandClearStep s).exported_frame_info_map
        = s.exported_frame_info_map ∧
      (onCommandClearStep s).assigned_inertias_map = s.assigned_inertias_map ∧
      (onCommandClearStep s).assigned_collision_geometry_map
        = s.assigned_collision_geometry_map) := by
  refine ⟨?_, ?_, ?_⟩
  · unfold onCommandClearStep
    by_cases h : s.joint_info_map.length > 0
    · rw [if_pos h]
    · rw [if_neg h]
  · intro h
    have hl : s.joint_info_map.length > 0 := by
      cases hj : s.joint_info_map with
      | nil => exact absurd hj h
      | cons a t => simp [hj]
    unfold onCommandClearStep
    rw [if_pos hl]
  · intro h
    have hl : ¬ s.joint_info_map.length > 0 := by
      rw [h]
      simp
    unfold onCommandClearStep
    rw [if_neg hl]
    exact ⟨rfl, rfl, rfl, rfl⟩

/-- `staleState` with a nonempty joint-candidate table. -/
def staleWithJoint : SessionState :=
  { staleState with
    joint_info_map := [("AXS",
      { name := "AXS", type := .Revolute, parent_link_name := "L1",
        child_link_name := "" })] }

/-- Witness for the amended claim C8 at concrete inputs: a nonempty
joint-candidate table forces the full clear, while `staleState` keeps its
link table. -/
theorem onCommandClearStep_spec_witness :
    (onCommandClearStep staleState).idyn_model = { links := [], joints := [] } ∧
    (staleWithJoint.joint_info_map ≠ [] ∧
      onCommandClearStep staleWithJoint
        = { joint_info_map := []
            link_info_map := []
            exported_frame_info_map := []
            assigned_inertias_map := []
            assigned_collision_geometry_map := []
            idyn_model := { links := [], joints := [] } }) ∧
    (staleState.joint_info_map = [] ∧
      (onCommandClearStep staleState).link_info_map
        = staleState.link_info_map) := by
  refine ⟨(onCommandClearStep_spec staleState).1, ⟨?_, ?_⟩, rfl, ?_⟩
  · intro h
    cases h
  · exact (onCommandClearStep_spec staleWithJoint).2.1 (fun h => by cases h)
  · exact ((onCommandClearStep_spec staleState).2.2 rfl).1

/-! ### `Creo2Urdf::addMeshAndExport` (lines 596-632) -/

/-- An iDynTree solid shape as attached to a link: either the exported
mesh (an `ExternalMesh` with filename, scale and material colour) or one of
the analytic primitives with its placement. -/
inductive SolidShape where
  | externalMesh (filename : String) (meshScale : Vec3) (color : Fin 4 → ℚ)
  | box (x y z : ℚ) (link_H_geometry : Transform)
  | cylinder (length radius : ℚ) (link_H_geometry : Transform)
  | sphere (radius : ℚ) (link_H_geometry : Transform)
deriving DecidableEq

/-- Whether a shape is the exported mesh. -/
def SolidShape.isExternalMesh : SolidShape → Bool
  | .externalMesh _ _ _ => true
  | _ => false

/-- The shape-attachment tail of `Creo2Urdf::addMeshAndExport`
(lines 596-632): given the assigned-collision-geometry table, the renamed
link name, and the visual mesh built earlier in the function, returns the
shapes pushed onto the link's collision list and visual list.  With a
configured entry, the analytic primitive (by shape kind) goes to the
collision list; without one, the mesh itself does.  The mesh is always
pushed onto the visual list. -/
def addMeshAndExport
    (acgMap : List (String × CollisionGeometryInfo))
    (renamed_link_name : String) (visualMesh : SolidShape) :
    List SolidShape × List SolidShape :=
  let collision : List SolidShape :=
    match lookupKey acgMap renamed_link_name with
    | some geometry_info =>
        match geometry_info.shape with
        | .Box => [.box (geometry_info.size 0) (geometry_info.size 1)
            (geometry_info.size 2) geometry_info.link_H_geometry]
        | .Cylinder => [.cylinder geometry_info.length geometry_info.radius
            geometry_info.link_H_geometry]
        | .Sphere => [.sphere geometry_info.radius
            geometry_info.link_H_geometry]
        | .None => []
    | none => [visualMesh]
  (collision, [visualMesh])

/-- Claim C9: a link with an assigned-collision-geometry entry gets the
mesh only as a visual shape — its collision list holds the configured
analytic primitive (box, cylinder or sphere, with its placement) and never
the mesh — while a link without an entry gets the same mesh as both its
collision shape and its visual shape. -/
theorem addMeshAndExport_spec (acgMap : List (String × CollisionGeometryInfo))
    (renamed_link_name : String) (visualMesh : SolidShape) :
    (∀ gi, lookupKey acgMap renamed_link_name = some gi →
      (addMeshAndExport acgMap renamed_link_name visualMesh).2 = [visualMesh] ∧
      (∀ s ∈ (addMeshAndExport acgMap renamed_link_name visualMesh).1,
        s.isExternalMesh = false ∨ s = visualMesh ∧ False) ∧
      (gi.shape = .Box →
        (addMeshAndExport acgMap renamed_link_name visualMesh).1
          = [.box (gi.size 0) (gi.size 1) (gi.size 2) gi.link_H_geometry]) ∧
      (gi.shape = .Cylinder →
        (addMeshAndExport acgMap renamed_link_name visualMesh).1
          = [.cylinder gi.length gi.radius gi.link_H_geometry]) ∧
      (gi.shape = .Sphere →
        (addMeshAndExport acgMap renamed_link_name visualMesh).1
          = [.sphere gi.radius gi.link_H_geometry])) ∧
    (lookupKey acgMap renamed_link_name = none →
      (addMeshAndExport acgMap renamed_link_name visualMesh).1 = [visualMesh] ∧
      (addMeshAndExport acgMap renamed_link_name visualMesh).2 = [visualMesh]) := by
  constructor
  · intro gi hgi
    refine ⟨rfl, ?_, ?_, ?_, ?_⟩
    · intro s hs
      simp only [addMeshAndExport, hgi] at hs
      rcases hsh : gi.shape with _ | _ | _ | _ <;> rw [hsh] at hs <;>
        simp only [List.mem_singleton, List.not_mem_nil] at hs
      · exact Or.inl (by rw [hs]; rfl)
      · exact Or.inl (by rw [hs]; rfl)
      · exact Or.inl (by rw [hs]; rfl)
    · intro hsh
      simp [addMeshAndExport, hgi, hsh]
    · intro hsh
      simp [addMeshAndExport, hgi, hsh]
    · intro hsh
      simp [addMeshAndExport, hgi, hsh]
  · intro hnone
    exact ⟨by simp [addMeshAndExport, hnone], rfl⟩

/-- A configured box collision geometry. -/
def c9box : CollisionGeometryInfo :=
  { shape := .Box, size := fun _ => 2, radius := 0, length := 0,
    link_H_geometry := Transform.ident }

/-- The visual mesh of link "L1". -/
def c9mesh : SolidShape :=
  .externalMesh "l1.stl" (fun _ => 1) (fun _ => 1)

/-- Witness for claim C9 at concrete inputs: with a configured box the
collision list is the box and the visual list the mesh; without an entry
both lists are the mesh. -/
theorem addMeshAndExport_spec_witness :
    ((addMeshAndExport [("L1", c9box)] "L1" c9mesh).2 = [c9mesh] ∧
      (addMeshAndExport [("L1", c9box)] "L1" c9mesh).1
        = [.box (c9box.size 0) (c9box.size 1) (c9box.size 2)
            c9box.link_H_geometry]) ∧
    ((addMeshAndExport [] "L1" c9mesh).1 = [c9mesh] ∧
      (addMeshAndExport [] "L1" c9mesh).2 = [c9mesh]) := by
  refine ⟨⟨?_, ?_⟩, ?_⟩
  · exact ((addMeshAndExport_spec [("L1", c9box)] "L1" c9mesh).1 c9box rfl).1
  · exact ((addMeshAndExport_spec [("L1", c9box)] "L1" c9mesh).1 c9box
      rfl).2.2.1 rfl
  · exact (addMeshAndExport_spec [] "L1" c9mesh).2 rfl

/-! ### XML blob assembly of `Creo2Urdf::OnCommand` (lines 284-299) -/

/-- The gazebo pose markup fragment built from the configured origin
options (`to_string` of the six numbers, modelled by `toString` on `ℚ`). -/
def gazeboPoseBlob (originXYZ originRPY : Vec3) : String :=
  "<gazebo><pose>" ++ toString (originXYZ 0) ++ " " ++ toString (originXYZ 1)
    ++ " " ++ toString (originXYZ 2) ++ " " ++ toString (originRPY 0) ++ " "
    ++ toString (originRPY 1) ++ " " ++ toString (originRPY 2)
    ++ "</pose></gazebo>"

/-- The `xmlBlobs` export option assembled by `OnCommand`: when the
configuration defines `XMLBlobs`, its strings are taken and the gazebo pose
fragment is appended; otherwise the option starts empty.  The FT-sensor and
sensor fragments are appended in both cases. -/
def buildXmlBlobs (xmlBlobsCfg : Option (List String))
    (originXYZ originRPY : Vec3) (ftBlobs sensBlobs : List String) :
    List String :=
  (match xmlBlobsCfg with
   | some blobs => blobs ++ [gazeboPoseBlob originXYZ originRPY]
   | none => []) ++ ftBlobs ++ sensBlobs

/-- Claim C10: the gazebo pose fragment built from the origin options is
appended to the exported markup exactly when the configuration defines the
`XMLBlobs` key; when the key is absent the result is just the sensor
fragments, independent of the origin options. -/
theorem buildXmlBlobs_spec (xmlBlobsCfg : Option (List String))
    (originXYZ originRPY : Vec3) (ftBlobs sensBlobs : List String) :
    (∀ blobs, xmlBlobsCfg = some blobs →
      buildXmlBlobs xmlBlobsCfg originXYZ originRPY ftBlobs sensBlobs
        = blobs ++ [gazeboPoseBlob originXYZ originRPY] ++ ftBlobs ++ sensBlobs
      ∧ gazeboPoseBlob originXYZ originRPY
          ∈ buildXmlBlobs xmlBlobsCfg originXYZ originRPY ftBlobs sensBlobs) ∧
    (xmlBlobsCfg = none →
      buildXmlBlobs xmlBlobsCfg originXYZ originRPY ftBlobs sensBlobs
        = ftBlobs ++ sensBlobs ∧
      ∀ xyz rpy, buildXmlBlobs xmlBlobsCfg originXYZ originRPY ftBlobs sensBlobs
        = buildXmlBlobs xmlBlobsCfg xyz rpy ftBlobs sensBlobs) := by
  constructor
  · intro blobs h
    subst h
    refine ⟨rfl, ?_⟩
    simp [buildXmlBlobs]
  · intro h
    subst h
    exact ⟨rfl, fun xyz rpy => rfl⟩

/-- Witness for claim C10 at concrete inputs. -/
theorem buildXmlBlobs_spec_witness :
    (buildXmlBlobs (some ["<b/>"]) (fun _ => 1) (fun _ => 2) ["f"] ["s"]
        = ["<b/>"] ++ [gazeboPoseBlob (fun _ => 1) (fun _ => 2)] ++ ["f"]
          ++ ["s"] ∧
      gazeboPoseBlob (fun _ => 1) (fun _ => 2)
        ∈ buildXmlBlobs (some ["<b/>"]) (fun _ => 1) (fun _ => 2) ["f"] ["s"]) ∧
    (buildXmlBlobs none (fun _ => 1) (fun _ => 2) ["f"] ["s"] = ["f"] ++ ["s"] ∧
      buildXmlBlobs none (fun _ => 1) (fun _ => 2) ["f"] ["s"]
        = buildXmlBlobs none (fun _ => 3) (fun _ => 4) ["f"] ["s"]) := by
  refine ⟨?_, ?_, ?_⟩
  · exact (buildXmlBlobs_spec (some ["<b/>"]) (fun _ => 1) (fun _ => 2)
      ["f"] ["s"]).1 ["<b/>"] rfl
  · exact ((buildXmlBlobs_spec none (fun _ => 1) (fun _ => 2)
      ["f"] ["s"]).2 rfl).1
  · exact ((buildXmlBlobs_spec none (fun _ => 1) (fun _ => 2)
      ["f"] ["s"]).2 rfl).2 (fun _ => 3) (fun _ => 4)

end Creo2Urdf
